import Mathlib

/-!
Verification of the Module (compilation unit) ownership layer of the
inkwell LLVM wrapper, as implemented in src/module.rs.

The native LLVM library is modelled as an explicit state (NativeState):
a total map from handles to native module records, a list of live
handles, a fresh-handle counter, a log of LLVMDisposeModule calls and a
counter of LLVMCloneModule calls.  Each native primitive used by
module.rs is a Lean function on this state.  Fallible native calls whose
outcome depends on the environment (execution-engine creation) take the
outcome of the native call as an explicit argument (EECallResult).
Rust panics are modelled by Option results (none means the operation
aborts instead of returning).
-/

namespace Inkwell

/-- Native handles are opaque pointers; equality is pointer identity, so
a handle is modelled as a natural number. -/
abbrev Handle := Nat

/-- Modelled from the spec: a Context wraps a reference-counted native
context handle (context.rs is not part of the sources); cloning the Rc
preserves the underlying handle, so only the handle is modelled. -/
structure Context where
  context : Nat
deriving DecidableEq

/-- Modelled from the spec: an ExecutionEngine is a reference-counted
owner of a native engine handle together with a flag distinguishing the
JIT-capable variant (execution_engine.rs is not part of the sources).
Rc clones share the same engine handle. -/
structure ExecutionEngine where
  engine : Nat
  jit : Bool
deriving DecidableEq

/-- DataLayout wraps a borrowed native string buffer (new_borrowed); the
buffer is modelled by its content. -/
structure DataLayout where
  content : String
deriving DecidableEq

/-- Constructor DataLayout::new_borrowed: wraps the native buffer. -/
def DataLayout.new_borrowed (s : String) : DataLayout := ⟨s⟩

/-- Accessor DataLayout::as_ptr, returning the buffer handed to native
calls; in the model this is the content itself. -/
def DataLayout.as_ptr (d : DataLayout) : String := d.content

/-- MetadataValue wraps a native LLVMValueRef. -/
structure MetadataValue where
  val : Nat
deriving DecidableEq

/-- Constructor MetadataValue::new. -/
def MetadataValue.new (v : Nat) : MetadataValue := ⟨v⟩

/-- Accessor MetadataValue::as_value_ref. -/
def MetadataValue.as_value_ref (m : MetadataValue) : Nat := m.val

/-- Modelled from the spec: the opaque optimization level passed through
to native JIT creation (its definition lives outside src/); it is only
forwarded, never inspected, by module.rs. -/
structure OptimizationLevel where
  level : Nat
deriving DecidableEq

/-- The native linkage enumeration of llvm-sys (LLVMLinkage). -/
inductive LLVMLinkage
  | LLVMExternalLinkage
  | LLVMAvailableExternallyLinkage
  | LLVMLinkOnceAnyLinkage
  | LLVMLinkOnceODRLinkage
  | LLVMLinkOnceODRAutoHideLinkage
  | LLVMWeakAnyLinkage
  | LLVMWeakODRLinkage
  | LLVMAppendingLinkage
  | LLVMInternalLinkage
  | LLVMPrivateLinkage
  | LLVMDLLImportLinkage
  | LLVMDLLExportLinkage
  | LLVMExternalWeakLinkage
  | LLVMGhostLinkage
  | LLVMCommonLinkage
  | LLVMLinkerPrivateLinkage
  | LLVMLinkerPrivateWeakLinkage
deriving DecidableEq

/-- The wrapper Linkage enumeration of module.rs. -/
inductive Linkage
  | Appending
  | AvailableExternally
  | Common
  | DLLExport
  | DLLImport
  | External
  | ExternalWeak
  | Ghost
  | Internal
  | LinkerPrivate
  | LinkerPrivateWeak
  | LinkOnceAny
  | LinkOnceODRAutoHide
  | LinkOnceODR
  | Private
  | WeakAny
  | WeakODR
deriving DecidableEq

/-- Linkage::new, the native-to-wrapper direction of the mapping
(module.rs lines 117-137). -/
def Linkage.new (linkage : LLVMLinkage) : Linkage :=
  match linkage with
  | .LLVMAppendingLinkage => Linkage.Appending
  | .LLVMAvailableExternallyLinkage => Linkage.AvailableExternally
  | .LLVMCommonLinkage => Linkage.Common
  | .LLVMDLLExportLinkage => Linkage.DLLExport
  | .LLVMDLLImportLinkage => Linkage.DLLImport
  | .LLVMExternalLinkage => Linkage.External
  | .LLVMExternalWeakLinkage => Linkage.ExternalWeak
  | .LLVMGhostLinkage => Linkage.Ghost
  | .LLVMInternalLinkage => Linkage.Internal
  | .LLVMLinkerPrivateLinkage => Linkage.LinkerPrivate
  | .LLVMLinkerPrivateWeakLinkage => Linkage.LinkerPrivateWeak
  | .LLVMLinkOnceAnyLinkage => Linkage.LinkOnceAny
  | .LLVMLinkOnceODRAutoHideLinkage => Linkage.LinkOnceODRAutoHide
  | .LLVMLinkOnceODRLinkage => Linkage.LinkOnceODR
  | .LLVMPrivateLinkage => Linkage.Private
  | .LLVMWeakAnyLinkage => Linkage.WeakAny
  | .LLVMWeakODRLinkage => Linkage.WeakODR

/-- Linkage::as_llvm_linkage, the wrapper-to-native direction of the
mapping (module.rs lines 139-159). -/
def Linkage.as_llvm_linkage (l : Linkage) : LLVMLinkage :=
  match l with
  | Linkage.Appending => .LLVMAppendingLinkage
  | Linkage.AvailableExternally => .LLVMAvailableExternallyLinkage
  | Linkage.Common => .LLVMCommonLinkage
  | Linkage.DLLExport => .LLVMDLLExportLinkage
  | Linkage.DLLImport => .LLVMDLLImportLinkage
  | Linkage.External => .LLVMExternalLinkage
  | Linkage.ExternalWeak => .LLVMExternalWeakLinkage
  | Linkage.Ghost => .LLVMGhostLinkage
  | Linkage.Internal => .LLVMInternalLinkage
  | Linkage.LinkerPrivate => .LLVMLinkerPrivateLinkage
  | Linkage.LinkerPrivateWeak => .LLVMLinkerPrivateWeakLinkage
  | Linkage.LinkOnceAny => .LLVMLinkOnceAnyLinkage
  | Linkage.LinkOnceODRAutoHide => .LLVMLinkOnceODRAutoHideLinkage
  | Linkage.LinkOnceODR => .LLVMLinkOnceODRLinkage
  | Linkage.Private => .LLVMPrivateLinkage
  | Linkage.WeakAny => .LLVMWeakAnyLinkage
  | Linkage.WeakODR => .LLVMWeakODRLinkage

/-- A named-metadata store: an association list from metadata keys to
the list of operand value refs, in append order. -/
abbrev MetadataStore := List (String × List Nat)

/-- Reads the operand list registered under a key (empty if the key has
no node yet). -/
def mdLookup : MetadataStore → String → List Nat
  | [], _ => []
  | (k, vs) :: rest, key => if k = key then vs else mdLookup rest key

/-- Appends one operand to the node of a key, creating the node if the
key is absent. -/
def mdAppend : MetadataStore → String → Nat → MetadataStore
  | [], key, v => [(key, [v])]
  | (k, vs) :: rest, key, v =>
    if k = key then (k, vs ++ [v]) :: rest else (k, vs) :: mdAppend rest key v

/-- One native module object: its name, its data-layout string (owned by
the module), its named-metadata lists, and the verifier's verdict on it
(valid flag plus the diagnostic the verifier produces on failure; none
models a null out-message). -/
structure NativeUnit where
  name : String
  dataLayout : String
  metadata : MetadataStore
  valid : Bool
  verifyDiag : Option String
deriving DecidableEq

/-- A freshly created native module: empty data layout, no metadata,
valid. -/
def NativeUnit.fresh (name : String) : NativeUnit :=
  { name := name, dataLayout := "", metadata := [], valid := true, verifyDiag := none }

/-- The state of the native LLVM library as observed through the
primitives module.rs uses: the module objects (a total map; only live
handles are meaningful), the live-handle list, a fresh-handle counter,
the log of LLVMDisposeModule calls (most recent first) and the number of
LLVMCloneModule calls made. -/
structure NativeState where
  units : Handle → NativeUnit
  live : List Handle
  nextHandle : Handle
  disposeLog : List Handle
  cloneCount : Nat

/-- Number of times a given handle has been passed to
LLVMDisposeModule. -/
def NativeState.disposeCount (st : NativeState) (h : Handle) : Nat :=
  st.disposeLog.count h

/-- Well-formedness of a native state: every live handle was allocated
below the fresh-handle counter, so the next allocation is fresh. -/
def NativeState.wf (st : NativeState) : Prop :=
  ∀ h, h ∈ st.live → h < st.nextHandle

/-- Native primitive LLVMModuleCreateWithName: allocates a fresh module
under the global context and returns its handle; never fails. -/
def LLVMModuleCreateWithName (name : String) (st : NativeState) : Handle × NativeState :=
  let h := st.nextHandle
  (h,
   { st with
     units := fun k => if k = h then NativeUnit.fresh name else st.units k,
     live := h :: st.live,
     nextHandle := h + 1 })

/-- Native primitive LLVMDisposeModule: destroys the module behind a
handle; the call is recorded in the dispose log. -/
def LLVMDisposeModule (h : Handle) (st : NativeState) : NativeState :=
  { st with live := st.live.erase h, disposeLog := h :: st.disposeLog }

/-- Native primitive LLVMCloneModule: allocates a fresh module that is a
copy of the given one and returns the new handle. -/
def LLVMCloneModule (h : Handle) (st : NativeState) : Handle × NativeState :=
  let h2 := st.nextHandle
  (h2,
   { st with
     units := fun k => if k = h2 then st.units h else st.units k,
     live := h2 :: st.live,
     nextHandle := h2 + 1,
     cloneCount := st.cloneCount + 1 })

/-- Native primitive LLVMSetDataLayout: overwrites the data-layout
string owned by the module. -/
def LLVMSetDataLayout (h : Handle) (layout : String) (st : NativeState) : NativeState :=
  { st with
    units := fun k =>
      if k = h then { st.units h with dataLayout := layout } else st.units k }

/-- Native primitive LLVMGetDataLayoutStr: reads the data-layout string
owned by the module. -/
def LLVMGetDataLayoutStr (h : Handle) (st : NativeState) : String :=
  (st.units h).dataLayout

/-- Native primitive LLVMAddNamedMetadataOperand: appends one operand to
the named metadata node of a key. -/
def LLVMAddNamedMetadataOperand (h : Handle) (key : String) (v : Nat) (st : NativeState) : NativeState :=
  { st with
    units := fun k =>
      if k = h then
        { st.units h with metadata := mdAppend (st.units h).metadata key v }
      else st.units k }

/-- Native primitive LLVMGetNamedMetadataNumOperands: the number of
operands of the named metadata node of a key. -/
def LLVMGetNamedMetadataNumOperands (h : Handle) (key : String) (st : NativeState) : Nat :=
  (mdLookup (st.units h).metadata key).length

/-- Native primitive LLVMGetNamedMetadataOperands: writes the operands
of the named metadata node into the destination buffer, in order. -/
def LLVMGetNamedMetadataOperands (h : Handle) (key : String) (st : NativeState) : List Nat :=
  mdLookup (st.units h).metadata key

/-- The verifier failure-action enumeration of llvm-sys. -/
inductive LLVMVerifierFailureAction
  | LLVMAbortProcessAction
  | LLVMPrintMessageAction
  | LLVMReturnStatusAction
deriving DecidableEq

/-- Native primitive LLVMVerifyModule: checks the module and returns the
status code (1 on failure) plus the out-message (filled on failure).  In
abort mode an invalid module aborts the process, modelled as none; the
two returning modes always return. -/
def LLVMVerifyModule (h : Handle) (action : LLVMVerifierFailureAction) (st : NativeState) :
    Option (Nat × Option String) :=
  let u := st.units h
  let code : Nat := if u.valid then 0 else 1
  match action with
  | .LLVMAbortProcessAction => if u.valid then some (0, none) else none
  | .LLVMPrintMessageAction => some (code, if u.valid then none else u.verifyDiag)
  | .LLVMReturnStatusAction => some (code, if u.valid then none else u.verifyDiag)

/-- Conversion CString::new of the Rust standard library: fails exactly
when the string contains a NUL byte.  module.rs always unwraps the
result with expect, so a NUL byte panics. -/
def CString.new (s : String) : Option String :=
  if s.data.any (fun c => c.toNat = 0) then none else some s

/-- The Module struct of module.rs: the optionally retained non-global
Context, the cached data-layout buffer (RefCell, an Option cleared only
at the end of life), the native handle (a Cell, so it can be swapped),
and the owned_by_ee slot holding the engine now responsible for
destruction, when one exists.  Interior mutability is modelled by the
operations returning the updated Module value. -/
structure Module where
  non_global_context : Option Context
  data_layout : Option DataLayout
  module : Handle
  owned_by_ee : Option ExecutionEngine
deriving DecidableEq

/-- Module::get_borrowed_data_layout: reads the data-layout string from
the native module and wraps it as a borrowed buffer. -/
def Module.get_borrowed_data_layout (module : Handle) (st : NativeState) : DataLayout :=
  DataLayout.new_borrowed (LLVMGetDataLayoutStr module st)

/-- Module::new (module.rs lines 173-182): wraps a native handle,
cloning the Context Rc when a non-global context is supplied, with an
empty owned_by_ee slot and a freshly read data-layout cache. -/
def Module.new (module : Handle) (context : Option Context) (st : NativeState) : Module :=
  { module := module,
    non_global_context := context.map (fun ctx => { context := ctx.context }),
    owned_by_ee := none,
    data_layout := some (Module.get_borrowed_data_layout module st) }

/-- Module::create (module.rs lines 198-206): converts the name to a C
string (panicking on a NUL byte, modelled as none), allocates a native
module under the global context and wraps it. -/
def Module.create (name : String) (st : NativeState) : Option (Module × NativeState) :=
  match CString.new name with
  | none => none
  | some c_string =>
    let r := LLVMModuleCreateWithName c_string st
    some (Module.new r.fst none r.snd, r.snd)

/-- Outcome of one native execution-engine-creation call: the returned
status code, the engine handle written through the out-parameter, and
the diagnostic written through the error out-parameter on failure. -/
structure EECallResult where
  code : Nat
  engine : Nat
  err : String
deriving DecidableEq

/-- Module::create_execution_engine (module.rs lines 454-470): on
native failure (code 1) returns the diagnostic and leaves the Module
untouched; on success wraps the engine (jit flag false), stores a clone
of it in the owned_by_ee slot and returns it. -/
def Module.create_execution_engine (m : Module) (res : EECallResult) :
    Module × Except String ExecutionEngine :=
  if res.code = 1 then
    (m, Except.error res.err)
  else
    let execution_engine : ExecutionEngine := { engine := res.engine, jit := false }
    ({ m with owned_by_ee := some execution_engine }, Except.ok execution_engine)

/-- Module::create_interpreter_execution_engine (module.rs lines
489-506): identical control flow to create_execution_engine, with the
interpreter native entry point (jit flag false). -/
def Module.create_interpreter_execution_engine (m : Module) (res : EECallResult) :
    Module × Except String ExecutionEngine :=
  if res.code = 1 then
    (m, Except.error res.err)
  else
    let execution_engine : ExecutionEngine := { engine := res.engine, jit := false }
    ({ m with owned_by_ee := some execution_engine }, Except.ok execution_engine)

/-- The failure action chosen by Module::verify (module.rs line 630):
the return-status action, never the aborting one. -/
def Module.verifyAction : LLVMVerifierFailureAction :=
  LLVMVerifierFailureAction.LLVMReturnStatusAction

/-- Module::verify (module.rs lines 627-641): runs LLVMVerifyModule in
return-status mode and returns the diagnostic as a recoverable error
exactly when the code is 1 and the out-message is non-null.  The outer
Option models process abort inside the native call (which the chosen
action never performs). -/
def Module.verify (m : Module) (st : NativeState) : Option (Except String Unit) :=
  match LLVMVerifyModule m.module Module.verifyAction st with
  | none => none
  | some (code, err_str) =>
    if code = 1 then
      match err_str with
      | some s => some (Except.error s)
      | none => some (Except.ok ())
    else
      some (Except.ok ())

/-- The Clone implementation for Module (module.rs lines 965-978): runs
verify and asserts its success (a panic, modelled as none, when it
fails), then clones the native module and wraps the fresh handle with
the same context.  The returned state records the native calls made:
on the panic path it is unchanged, so LLVMCloneModule was not called. -/
def Module.clone (m : Module) (st : NativeState) : Option Module × NativeState :=
  match Module.verify m st with
  | some (Except.ok _) =>
    let r := LLVMCloneModule m.module st
    (some (Module.new r.fst m.non_global_context r.snd), r.snd)
  | _ => (none, st)

/-- Module::create_jit_execution_engine (module.rs lines 526-555): on
native failure (code 1) the module may already be half-owned by the
native library, so the implementation clones itself (note the clone
asserts verify), swaps the fresh handle into the module Cell, forgets
the clone wrapper (so nothing is disposed) and returns the diagnostic;
on success it wraps the engine with the jit flag set and stores it in
the owned_by_ee slot.  The outer Option models the panic inside clone. -/
def Module.create_jit_execution_engine (m : Module) (opt_level : OptimizationLevel)
    (res : EECallResult) (st : NativeState) :
    Option (Module × Except String ExecutionEngine) × NativeState :=
  if res.code = 1 then
    match Module.clone m st with
    | (some fresh, st2) =>
      (some ({ m with module := fresh.module }, Except.error res.err), st2)
    | (none, st2) => (none, st2)
  else
    let execution_engine : ExecutionEngine := { engine := res.engine, jit := true }
    (some ({ m with owned_by_ee := some execution_engine }, Except.ok execution_engine), st)

/-- Module::get_data_layout (module.rs lines 660-662): returns the
cached buffer; the expect panics when the cache is empty, modelled as
none. -/
def Module.get_data_layout (m : Module) : Option DataLayout :=
  m.data_layout

/-- Module::set_data_layout (module.rs lines 666-672): writes the layout
to the native module, then refreshes the cached buffer from the native
module before returning. -/
def Module.set_data_layout (m : Module) (data_layout : DataLayout) (st : NativeState) :
    Module × NativeState :=
  let st2 := LLVMSetDataLayout m.module data_layout.as_ptr st
  ({ m with data_layout := some (Module.get_borrowed_data_layout m.module st2) }, st2)

/-- Module::add_global_metadata (module.rs lines 718-724): converts the
key (panicking on a NUL byte) and appends the value to the named node. -/
def Module.add_global_metadata (m : Module) (key : String) (metadata : MetadataValue)
    (st : NativeState) : Option NativeState :=
  match CString.new key with
  | none => none
  | some c_string =>
    some (LLVMAddNamedMetadataOperand m.module c_string metadata.as_value_ref st)

/-- Module::get_global_metadata_size (module.rs lines 727-733): converts
the key (panicking on a NUL byte) and queries the operand count. -/
def Module.get_global_metadata_size (m : Module) (key : String) (st : NativeState) :
    Option Nat :=
  match CString.new key with
  | none => none
  | some c_string =>
    some (LLVMGetNamedMetadataNumOperands m.module c_string st)

/-- Module::get_global_metadata (module.rs lines 737-753): queries the
count, sizes the destination buffer with it, has the native call fill
the buffer and reads back exactly count entries, wrapping each. -/
def Module.get_global_metadata (m : Module) (key : String) (st : NativeState) :
    Option (List MetadataValue) :=
  match CString.new key with
  | none => none
  | some c_string =>
    match Module.get_global_metadata_size m key st with
    | none => none
    | some count =>
      some (((LLVMGetNamedMetadataOperands m.module c_string st).take count).map
        (fun v => MetadataValue.new v))

/-- The Drop implementation for Module (module.rs lines 982-992): takes
the owned_by_ee slot; when it was empty the native module is disposed,
when an engine owns the module nothing is destroyed. -/
def Module.drop (m : Module) (st : NativeState) : NativeState :=
  match m.owned_by_ee with
  | none => LLVMDisposeModule m.module st
  | some _ => st

/-- Iterates add_global_metadata over a list of key-value operations,
propagating a panic on any NUL-containing key. -/
def addAllMetadata (m : Module) : List (String × Nat) → NativeState → Option NativeState
  | [], st => some st
  | p :: rest, st =>
    match Module.add_global_metadata m p.1 (MetadataValue.new p.2) st with
    | none => none
    | some st2 => addAllMetadata m rest st2

/-- An empty native library state. -/
def initState : NativeState :=
  { units := fun _ => NativeUnit.fresh "",
    live := [],
    nextHandle := 0,
    disposeLog := [],
    cloneCount := 0 }

/-- Fallback pair used only to extract the components of a create call
that is known to succeed. -/
def dfltPair : Module × NativeState :=
  ({ non_global_context := none, data_layout := none, module := 0, owned_by_ee := none },
   initState)

/-- A concrete Module obtained from Module.create applied to the empty
state. -/
def m0 : Module := ((Module.create "m" initState).getD dfltPair).fst

/-- The native state right after creating m0. -/
def st0 : NativeState := ((Module.create "m" initState).getD dfltPair).snd

/-- A concrete native module that fails verification. -/
def badUnit : NativeUnit :=
  { name := "bad", dataLayout := "", metadata := [], valid := false,
    verifyDiag := some "broken" }

/-- A concrete native state whose only live module is invalid. -/
def stBad : NativeState :=
  { units := fun _ => badUnit,
    live := [0],
    nextHandle := 1,
    disposeLog := [],
    cloneCount := 0 }

/-- A wrapper over the invalid module of stBad. -/
def mBad : Module :=
  { non_global_context := none,
    data_layout := some (DataLayout.new_borrowed ""),
    module := 0,
    owned_by_ee := none }

/-- A concrete failing native engine-creation outcome. -/
def eeFail : EECallResult := { code := 1, engine := 0, err := "jit creation failed" }

/-- A concrete successful native engine-creation outcome. -/
def eeOk : EECallResult := { code := 0, engine := 7, err := "" }

/-- The state st0 is well formed: its only live handle is below the
fresh-handle counter. -/
theorem st0_wf : NativeState.wf st0 := by
  intro h hh
  have hl : h ∈ [0] := hh
  have h0 : h = 0 := by simpa using hl
  show h < 1
  subst h0
  exact Nat.zero_lt_one

/-- Claim C7: the Linkage enumeration maps losslessly to and from the
native linkage representation: both composites of Linkage.new and
Linkage.as_llvm_linkage are the identity. -/
theorem linkage_roundtrip_total :
    (∀ l : Linkage, Linkage.new (Linkage.as_llvm_linkage l) = l) ∧
    (∀ x : LLVMLinkage, Linkage.as_llvm_linkage (Linkage.new x) = x) := by
  constructor
  · intro l; cases l <;> rfl
  · intro x; cases x <;> rfl

/-- Claim C1: dropping a Module calls LLVMDisposeModule exactly once
when the owned_by_ee slot is empty and performs no native destruction
when it is set; after any of the three engine-creation operations
succeeds, dropping the resulting Module never destroys the module
handle. -/
theorem drop_disposes_exactly_once_unless_engine_owned (m : Module) (st : NativeState) :
    (m.owned_by_ee = none →
      Module.drop m st = LLVMDisposeModule m.module st ∧
      (Module.drop m st).disposeCount m.module = st.disposeCount m.module + 1) ∧
    (m.owned_by_ee ≠ none →
      Module.drop m st = st) ∧
    (∀ res : EECallResult, res.code ≠ 1 →
      Module.drop (Module.create_execution_engine m res).fst st = st ∧
      Module.drop (Module.create_interpreter_execution_engine m res).fst st = st) ∧
    (∀ opt_level res st1 m1 e st2, res.code ≠ 1 →
      Module.create_jit_execution_engine m opt_level res st1 = (some (m1, Except.ok e), st2) →
      Module.drop m1 st2 = st2) := by
  refine ⟨?_, ?_, ?_, ?_⟩
  · intro h
    constructor
    · simp [Module.drop, h]
    · simp [Module.drop, h, LLVMDisposeModule, NativeState.disposeCount]
  · intro h
    cases ho : m.owned_by_ee with
    | none => exact absurd ho h
    | some e => simp [Module.drop, ho]
  · intro res hres
    constructor <;>
      simp [Module.drop, Module.create_execution_engine,
        Module.create_interpreter_execution_engine, hres]
  · intro opt_level res st1 m1 e st2 hres heq
    simp only [Module.create_jit_execution_engine, if_neg hres] at heq
    obtain ⟨⟨hm1, _⟩, hst⟩ := by
      simpa [Prod.ext_iff] using heq
    subst hst
    simp [Module.drop, ← hm1]

/-- Witness for C1: concrete drops of an unowned and an engine-owned
module, the latter obtained through a successful JIT creation. -/
theorem drop_disposes_exactly_once_unless_engine_owned_witness :
    Module.drop m0 st0 = LLVMDisposeModule m0.module st0 ∧
    Module.drop { m0 with owned_by_ee := some { engine := 7, jit := true } } st0 = st0 := by
  have h := drop_disposes_exactly_once_unless_engine_owned m0 st0
  refine ⟨(h.1 rfl).1, ?_⟩
  exact h.2.2.2 ⟨0⟩ eeOk st0
    { m0 with owned_by_ee := some { engine := 7, jit := true } }
    { engine := 7, jit := true } st0 (by decide) rfl

/-- Claim C9: when plain or interpreter engine creation fails, the
Module value is returned entirely unchanged (the owned_by_ee slot is
not written and the handle is not replaced), together with the native
diagnostic as a recoverable error. -/
theorem engine_creation_failure_leaves_module_unchanged
    (m : Module) (res : EECallResult) (hfail : res.code = 1) :
    Module.create_execution_engine m res = (m, Except.error res.err) ∧
    Module.create_interpreter_execution_engine m res = (m, Except.error res.err) := by
  constructor <;>
    simp [Module.create_execution_engine, Module.create_interpreter_execution_engine, hfail]

/-- Witness for C9 at a concrete module and failing call outcome. -/
theorem engine_creation_failure_leaves_module_unchanged_witness :
    Module.create_execution_engine m0 eeFail = (m0, Except.error eeFail.err) ∧
    Module.create_interpreter_execution_engine m0 eeFail = (m0, Except.error eeFail.err) :=
  engine_creation_failure_leaves_module_unchanged m0 eeFail rfl

/-- Claim C4: set_data_layout writes the layout to the native unit and
then refreshes the cached buffer from the native unit before returning,
so a subsequent get_data_layout yields a buffer whose content equals the
layout just set. -/
theorem set_data_layout_refreshes_cache (m : Module) (dl : DataLayout) (st : NativeState) :
    (Module.set_data_layout m dl st).snd = LLVMSetDataLayout m.module dl.content st ∧
    (Module.set_data_layout m dl st).fst.data_layout =
      some (Module.get_borrowed_data_layout m.module (Module.set_data_layout m dl st).snd) ∧
    Module.get_data_layout (Module.set_data_layout m dl st).fst = some dl ∧
    ∃ b, Module.get_data_layout (Module.set_data_layout m dl st).fst = some b ∧
      b.content = dl.content := by
  refine ⟨rfl, rfl, ?_, ?_⟩
  · simp [Module.set_data_layout, Module.get_data_layout, Module.get_borrowed_data_layout,
      LLVMSetDataLayout, LLVMGetDataLayoutStr, DataLayout.new_borrowed, DataLayout.as_ptr]
  · refine ⟨DataLayout.new_borrowed dl.content, ?_, rfl⟩
    simp [Module.set_data_layout, Module.get_data_layout, Module.get_borrowed_data_layout,
      LLVMSetDataLayout, LLVMGetDataLayoutStr, DataLayout.new_borrowed, DataLayout.as_ptr]

/-- Claim C5: verify uses the return-status failure action and never
aborts the process; under the native contract that a failing validation
fills the out-message with non-empty text, verify returns a failure
carrying that text exactly when the validator reports failure, success
on a well-formed unit, and non-empty diagnostic text on an invalid
unit. -/
theorem verify_returns_status_iff_invalid (m : Module) (st : NativeState)
    (hdiag : (st.units m.module).valid = false →
      ∃ s, (st.units m.module).verifyDiag = some s ∧ s ≠ "") :
    Module.verifyAction = LLVMVerifierFailureAction.LLVMReturnStatusAction ∧
    (Module.verify m st).isSome = true ∧
    ((st.units m.module).valid = true → Module.verify m st = some (Except.ok ())) ∧
    ((st.units m.module).valid = false →
      ∃ s, Module.verify m st = some (Except.error s) ∧
        (st.units m.module).verifyDiag = some s ∧ s ≠ "") ∧
    (∀ s, Module.verify m st = some (Except.error s) → (st.units m.module).valid = false) := by
  cases hv : (st.units m.module).valid with
  | true =>
    refine ⟨rfl, ?_, ?_, ?_, ?_⟩
    · simp [Module.verify, LLVMVerifyModule, Module.verifyAction, hv]
    · intro _
      simp [Module.verify, LLVMVerifyModule, Module.verifyAction, hv]
    · intro hcontra
      exact Bool.noConfusion hcontra
    · intro s hs
      rw [show Module.verify m st = some (Except.ok ()) by
        simp [Module.verify, LLVMVerifyModule, Module.verifyAction, hv]] at hs
      simp at hs
  | false =>
    obtain ⟨s, hsome, hne⟩ := hdiag hv
    have hver : Module.verify m st = some (Except.error s) := by
      simp [Module.verify, LLVMVerifyModule, Module.verifyAction, hv, hsome]
    refine ⟨rfl, ?_, ?_, ?_, ?_⟩
    · simp [hver]
    · intro hcontra
      exact Bool.noConfusion hcontra
    · intro _
      exact ⟨s, hver, hsome, hne⟩
    · intro _ _
      rfl

/-- Witness for C5 at the concrete invalid module of stBad. -/
theorem verify_returns_status_iff_invalid_witness :
    Module.verifyAction = LLVMVerifierFailureAction.LLVMReturnStatusAction ∧
    (Module.verify mBad stBad).isSome = true ∧
    ((stBad.units mBad.module).valid = true → Module.verify mBad stBad = some (Except.ok ())) ∧
    ((stBad.units mBad.module).valid = false →
      ∃ s, Module.verify mBad stBad = some (Except.error s) ∧
        (stBad.units mBad.module).verifyDiag = some s ∧ s ≠ "") ∧
    (∀ s, Module.verify mBad stBad = some (Except.error s) →
      (stBad.units mBad.module).valid = false) :=
  verify_returns_status_iff_invalid mBad stBad (fun _ => ⟨"broken", rfl, by decide⟩)

/-- Claim C3: clone first runs verify; when verification fails the
clone fails fatally and the native clone primitive is never invoked
(the returned state, including the clone-call counter, is untouched);
when verification succeeds the native clone is called and a fresh,
independently owned unit with the same Context is returned. -/
theorem clone_verifies_before_native_clone (m : Module) (st : NativeState)
    (hwf : NativeState.wf st) :
    (Module.verify m st ≠ some (Except.ok ()) →
      Module.clone m st = (none, st) ∧
      (Module.clone m st).snd.cloneCount = st.cloneCount) ∧
    (Module.verify m st = some (Except.ok ()) →
      ∃ m2, Module.clone m st = (some m2, (LLVMCloneModule m.module st).snd) ∧
        (Module.clone m st).snd.cloneCount = st.cloneCount + 1 ∧
        m2.module = st.nextHandle ∧
        m2.module ∉ st.live ∧
        m2.owned_by_ee = none ∧
        m2.non_global_context = m.non_global_context) := by
  constructor
  · intro hne
    unfold Module.clone
    rcases hv : Module.verify m st with _ | v
    · exact ⟨rfl, rfl⟩
    · rcases v with s | u
      · exact ⟨rfl, rfl⟩
      · cases u
        exact absurd hv hne
  · intro hok
    unfold Module.clone
    rw [hok]
    refine ⟨Module.new (LLVMCloneModule m.module st).fst m.non_global_context
      (LLVMCloneModule m.module st).snd, rfl, ?_, rfl, ?_, rfl, ?_⟩
    · rfl
    · intro hmem
      exact lt_irrefl st.nextHandle (hwf st.nextHandle hmem)
    · show (m.non_global_context).map (fun ctx => { context := ctx.context }) =
        m.non_global_context
      cases m.non_global_context <;> rfl

/-- Witness for C3 at the concrete valid module m0 (the success side of
the conjunction is exercised). -/
theorem clone_verifies_before_native_clone_witness :
    ∃ m2, Module.clone m0 st0 = (some m2, (LLVMCloneModule m0.module st0).snd) ∧
      (Module.clone m0 st0).snd.cloneCount = st0.cloneCount + 1 ∧
      m2.module = st0.nextHandle ∧
      m2.module ∉ st0.live ∧
      m2.owned_by_ee = none ∧
      m2.non_global_context = m0.non_global_context :=
  (clone_verifies_before_native_clone m0 st0 st0_wf).2 rfl

/-- Counterexample for C2 as stated: when the native JIT creation fails
on a module that does not pass verification, the implementation panics
inside the defensive clone (the clone asserts verify), so no recoverable
error carrying the native diagnostic is returned. -/
theorem jit_failure_recovery_counterexample :
    eeFail.code = 1 ∧
    (Module.create_jit_execution_engine mBad ⟨0⟩ eeFail stBad).fst = none :=
  ⟨rfl, rfl⟩

/-- Claim C2 (amended): when the native JIT creation fails on a Module
that passes verification, the implementation duplicates the native
handle into a fresh, independently owned unit, substitutes the fresh
handle into the Module in place of the original (discarding the
original without disposing it), and returns the native diagnostic as a
recoverable error. -/
theorem jit_failure_reowns_module (m : Module) (opt_level : OptimizationLevel)
    (res : EECallResult) (st : NativeState)
    (hfail : res.code = 1)
    (hvalid : (st.units m.module).valid = true)
    (hwf : NativeState.wf st) :
    ∃ st2, Module.create_jit_execution_engine m opt_level res st =
        (some ({ m with module := st.nextHandle }, Except.error res.err), st2) ∧
      st.nextHandle ∉ st.live ∧
      st2.units st.nextHandle = st.units m.module ∧
      st2.cloneCount = st.cloneCount + 1 ∧
      st2.disposeLog = st.disposeLog := by
  have hok : Module.verify m st = some (Except.ok ()) := by
    simp [Module.verify, LLVMVerifyModule, Module.verifyAction, hvalid]
  have hclone : Module.clone m st =
      (some (Module.new (LLVMCloneModule m.module st).fst m.non_global_context
        (LLVMCloneModule m.module st).snd), (LLVMCloneModule m.module st).snd) := by
    unfold Module.clone
    rw [hok]
  refine ⟨(LLVMCloneModule m.module st).snd, ?_, ?_, ?_, rfl, rfl⟩
  · unfold Module.create_jit_execution_engine
    rw [if_pos hfail, hclone]
    rfl
  · intro hmem
    exact lt_irrefl st.nextHandle (hwf st.nextHandle hmem)
  · show (if st.nextHandle = st.nextHandle then st.units m.module
      else st.units st.nextHandle) = st.units m.module
    rw [if_pos rfl]

/-- Witness for the amended C2 at the concrete valid module m0 and a
concrete failing JIT call outcome. -/
theorem jit_failure_reowns_module_witness :
    ∃ st2, Module.create_jit_execution_engine m0 ⟨0⟩ eeFail st0 =
        (some ({ m0 with module := st0.nextHandle }, Except.error eeFail.err), st2) ∧
      st0.nextHandle ∉ st0.live ∧
      st2.units st0.nextHandle = st0.units m0.module ∧
      st2.cloneCount = st0.cloneCount + 1 ∧
      st2.disposeLog = st0.disposeLog :=
  jit_failure_reowns_module m0 ⟨0⟩ eeFail st0 rfl rfl st0_wf

/-- Counterexample for C6 as stated: a name containing a NUL byte makes
create abort (the CString conversion is unwrapped with expect), so
create does not succeed for every input name. -/
theorem create_nul_name_counterexample :
    Module.create "\x00" initState = none := rfl

/-- Claim C6 (amended): for every name free of NUL bytes, create
succeeds without any failure, allocating a fresh native unit under the
global context (the wrapper retains no non-global Context) and wrapping
it with an empty engine slot and an initialized data-layout cache. -/
theorem create_succeeds_on_nul_free_names (name : String) (st : NativeState)
    (hname : name.data.any (fun c => c.toNat = 0) = false) :
    ∃ md st2, Module.create name st = some (md, st2) ∧
      md.module = st.nextHandle ∧
      md.non_global_context = none ∧
      md.owned_by_ee = none ∧
      md.data_layout.isSome = true ∧
      st2.units st.nextHandle = NativeUnit.fresh name ∧
      md.module ∈ st2.live := by
  have hc : CString.new name = some name := by
    unfold CString.new
    rw [hname]
    simp
  refine ⟨Module.new st.nextHandle none (LLVMModuleCreateWithName name st).snd,
    (LLVMModuleCreateWithName name st).snd, ?_, rfl, rfl, rfl, rfl, ?_, ?_⟩
  · unfold Module.create
    rw [hc]
    rfl
  · show (if st.nextHandle = st.nextHandle then NativeUnit.fresh name
      else st.units st.nextHandle) = NativeUnit.fresh name
    rw [if_pos rfl]
  · show st.nextHandle ∈ st.nextHandle :: st.live
    exact List.mem_cons_self st.nextHandle st.live

/-- Witness for the amended C6 at a concrete NUL-free name. -/
theorem create_succeeds_on_nul_free_names_witness :
    ∃ md st2, Module.create "my_module" initState = some (md, st2) ∧
      md.module = initState.nextHandle ∧
      md.non_global_context = none ∧
      md.owned_by_ee = none ∧
      md.data_layout.isSome = true ∧
      st2.units initState.nextHandle = NativeUnit.fresh "my_module" ∧
      md.module ∈ st2.live :=
  create_succeeds_on_nul_free_names "my_module" initState (by decide)

/-- Looking a key up after appending an operand under a possibly
different key: the list grows by the operand exactly for the appended
key and is untouched for every other key. -/
theorem mdLookup_mdAppend (md : MetadataStore) (key key2 : String) (v : Nat) :
    mdLookup (mdAppend md key v) key2 =
      if key2 = key then mdLookup md key2 ++ [v] else mdLookup md key2 := by
  induction md with
  | nil =>
    by_cases h : key2 = key
    · subst h
      simp [mdAppend, mdLookup]
    · have h2 : ¬ key = key2 := fun hk => h hk.symm
      simp [mdAppend, mdLookup, h, h2]
  | cons p rest ih =>
    obtain ⟨k, vs⟩ := p
    by_cases hk : k = key
    · by_cases h2 : key2 = key
      · have h3 : k = key2 := by rw [hk, h2]
        simp [mdAppend, mdLookup, hk, h2, h3]
      · have h3 : ¬ k = key2 := fun hkk => h2 (by rw [← hkk, hk])
        have h4 : ¬ key = key2 := fun hkk => h2 hkk.symm
        simp [mdAppend, mdLookup, hk, h2, h3, h4]
    · by_cases h2 : k = key2
      · have h3 : ¬ key2 = key := fun hkk => hk (by rw [h2, hkk])
        simp [mdAppend, mdLookup, hk, h2, h3]
      · simp [mdAppend, mdLookup, hk, h2, ih]

/-- A successful add_global_metadata call performs exactly the native
append on the key (the CString conversion in the model returns the key
itself). -/
theorem add_global_metadata_some (m : Module) (key : String) (md : MetadataValue)
    (st st2 : NativeState)
    (h : Module.add_global_metadata m key md st = some st2) :
    st2 = LLVMAddNamedMetadataOperand m.module key md.val st := by
  unfold Module.add_global_metadata at h
  cases hc : CString.new key with
  | none => rw [hc] at h; cases h
  | some c =>
    rw [hc] at h
    have hck : c = key := by
      unfold CString.new at hc
      cases hb : key.data.any (fun ch => ch.toNat = 0) with
      | true => rw [hb] at hc; simp at hc
      | false =>
        rw [hb] at hc
        simp at hc
        exact hc.symm
    subst hck
    exact (Option.some.inj h).symm

/-- Iterated adds extend the operand list of each key by exactly the
values added under that key, in order. -/
theorem addAllMetadata_lookup (m : Module) (key : String) :
    ∀ (ops : List (String × Nat)) (st st2 : NativeState),
      addAllMetadata m ops st = some st2 →
      mdLookup ((st2.units m.module).metadata) key =
        mdLookup ((st.units m.module).metadata) key ++
          ((ops.filter (fun p => p.1 == key)).map (fun p => p.2)) := by
  intro ops
  induction ops with
  | nil =>
    intro st st2 h
    unfold addAllMetadata at h
    have hst : st2 = st := (Option.some.inj h).symm
    subst hst
    simp [List.filter]
  | cons p rest ih =>
    intro st st2 h
    unfold addAllMetadata at h
    cases ha : Module.add_global_metadata m p.1 (MetadataValue.new p.2) st with
    | none => rw [ha] at h; cases h
    | some stm =>
      rw [ha] at h
      have hstm := add_global_metadata_some m p.1 (MetadataValue.new p.2) st stm ha
      have hrec := ih stm st2 h
      rw [hrec]
      subst hstm
      have hunits : ((LLVMAddNamedMetadataOperand m.module p.1
          (MetadataValue.new p.2).val st).units m.module).metadata =
          mdAppend ((st.units m.module).metadata) p.1 p.2 := by
        simp [LLVMAddNamedMetadataOperand, MetadataValue.new]
      rw [hunits, mdLookup_mdAppend]
      by_cases hpk : p.1 = key
      · have hb : (p.1 == key) = true := by simp [hpk]
        simp [List.filter_cons, hb, if_pos hpk.symm, List.append_assoc]
      · have hb : (p.1 == key) = false := by simp [hpk]
        have hnk : ¬ key = p.1 := fun hkk => hpk hkk.symm
        simp [List.filter_cons, hb, if_neg hnk]

/-- Claim C8: for a key with no metadata yet, the size query returns 0;
after the adds of an operation list it returns the number of adds under
that key; the fetch sizes its buffer with a count queried immediately
before reading and returns exactly that many elements, in append order;
and every fetch agrees in length with the size query. -/
theorem global_metadata_count_and_fetch (m : Module) (key : String)
    (ops : List (String × Nat)) (st st2 : NativeState)
    (hkey : CString.new key = some key)
    (h0 : mdLookup ((st.units m.module).metadata) key = [])
    (hadd : addAllMetadata m ops st = some st2) :
    Module.get_global_metadata_size m key st = some 0 ∧
    Module.get_global_metadata_size m key st2 =
      some ((ops.filter (fun p => p.1 == key)).length) ∧
    Module.get_global_metadata m key st2 =
      some ((ops.filter (fun p => p.1 == key)).map (fun p => MetadataValue.new p.2)) ∧
    (∀ st3 l, Module.get_global_metadata m key st3 = some l →
      Module.get_global_metadata_size m key st3 = some l.length) := by
  have hlook := addAllMetadata_lookup m key ops st st2 hadd
  rw [h0] at hlook
  simp only [List.nil_append] at hlook
  have hexp : ∀ st3 : NativeState, Module.get_global_metadata m key st3 =
      some ((mdLookup ((st3.units m.module).metadata) key).map
        (fun v => MetadataValue.new v)) := by
    intro st3
    simp [Module.get_global_metadata, Module.get_global_metadata_size, hkey,
      LLVMGetNamedMetadataNumOperands, LLVMGetNamedMetadataOperands, List.take_length]
  refine ⟨?_, ?_, ?_, ?_⟩
  · simp [Module.get_global_metadata_size, hkey, LLVMGetNamedMetadataNumOperands, h0]
  · simp [Module.get_global_metadata_size, hkey, LLVMGetNamedMetadataNumOperands, hlook]
  · rw [hexp st2, hlook]
    simp [List.map_map, Function.comp]
  · intro st3 l hl
    rw [hexp st3] at hl
    have hleq : l = (mdLookup ((st3.units m.module).metadata) key).map
        (fun v => MetadataValue.new v) := (Option.some.inj hl).symm
    subst hleq
    simp [Module.get_global_metadata_size, hkey, LLVMGetNamedMetadataNumOperands]

/-- A concrete metadata operation list: two adds under the key k with
one add under another key interleaved. -/
def c8ops : List (String × Nat) := [("k", 5), ("j", 6), ("k", 7)]

/-- The state after applying c8ops to m0 in st0. -/
def c8st2 : NativeState := (addAllMetadata m0 c8ops st0).getD initState

/-- Witness for C8 at the concrete module m0, key k and operation list
c8ops. -/
theorem global_metadata_count_and_fetch_witness :
    Module.get_global_metadata_size m0 "k" st0 = some 0 ∧
    Module.get_global_metadata_size m0 "k" c8st2 =
      some ((c8ops.filter (fun p => p.1 == "k")).length) ∧
    Module.get_global_metadata m0 "k" c8st2 =
      some ((c8ops.filter (fun p => p.1 == "k")).map (fun p => MetadataValue.new p.2)) ∧
    (∀ st3 l, Module.get_global_metadata m0 "k" st3 = some l →
      Module.get_global_metadata_size m0 "k" st3 = some l.length) :=
  global_metadata_count_and_fetch m0 "k" c8ops st0 c8st2 rfl rfl rfl

/-- Claim C10: the cached data_layout field is Some at construction and
stays Some across every operation of the wrapper (set_data_layout
replaces it by another Some, the engine-creation paths and the JIT
recovery path leave the field untouched, clone builds a fresh Some), so
get_data_layout, which unwraps the option, never aborts on a live
Module. -/
theorem data_layout_cache_always_present :
    (∀ h ctx st, (Module.new h ctx st).data_layout.isSome = true) ∧
    (∀ name st md st2, Module.create name st = some (md, st2) →
      md.data_layout.isSome = true) ∧
    (∀ m dl st, ((Module.set_data_layout m dl st).fst).data_layout.isSome = true) ∧
    (∀ m res, ((Module.create_execution_engine m res).fst).data_layout = m.data_layout) ∧
    (∀ m res, ((Module.create_interpreter_execution_engine m res).fst).data_layout =
      m.data_layout) ∧
    (∀ m opt_level res st m1 r st2,
      Module.create_jit_execution_engine m opt_level res st = (some (m1, r), st2) →
      m1.data_layout = m.data_layout) ∧
    (∀ m st m2 st2, Module.clone m st = (some m2, st2) →
      m2.data_layout.isSome = true) ∧
    (∀ m, m.data_layout.isSome = true → (Module.get_data_layout m).isSome = true) := by
  refine ⟨?_, ?_, ?_, ?_, ?_, ?_, ?_, ?_⟩
  · intro h ctx st
    simp [Module.new]
  · intro name st md st2 h
    unfold Module.create at h
    cases hc : CString.new name with
    | none => rw [hc] at h; cases h
    | some c =>
      rw [hc] at h
      have hmd : md = Module.new (LLVMModuleCreateWithName c st).fst none
          (LLVMModuleCreateWithName c st).snd := by
        have := Option.some.inj h
        exact (congrArg Prod.fst this).symm
      rw [hmd]
      simp [Module.new]
  · intro m dl st
    simp [Module.set_data_layout]
  · intro m res
    by_cases hc : res.code = 1 <;> simp [Module.create_execution_engine, hc]
  · intro m res
    by_cases hc : res.code = 1 <;> simp [Module.create_interpreter_execution_engine, hc]
  · intro m opt_level res st m1 r st2 h
    by_cases hc : res.code = 1
    · rw [Module.create_jit_execution_engine, if_pos hc] at h
      rcases hclone : Module.clone m st with ⟨o, stc⟩
      rw [hclone] at h
      cases o with
      | some fresh =>
        simp only [Prod.mk.injEq, Option.some.injEq] at h
        obtain ⟨⟨hm1, _⟩, _⟩ := h
        rw [← hm1]
      | none => simp at h
    · rw [Module.create_jit_execution_engine, if_neg hc] at h
      simp only [Prod.mk.injEq, Option.some.injEq] at h
      obtain ⟨⟨hm1, _⟩, _⟩ := h
      rw [← hm1]
  · intro m st m2 st2 h
    unfold Module.clone at h
    rcases hv : Module.verify m st with _ | v
    · rw [hv] at h; simp at h
    · rcases v with s | u
      · rw [hv] at h; simp at h
      · cases u
        rw [hv] at h
        simp only [Prod.mk.injEq, Option.some.injEq] at h
        obtain ⟨hm2, _⟩ := h
        rw [← hm2]
        simp [Module.new]
  · intro m h
    simpa [Module.get_data_layout] using h

/-- Witness for C10 at the concrete module m0 produced by create. -/
theorem data_layout_cache_always_present_witness :
    m0.data_layout.isSome = true ∧
    (Module.get_data_layout m0).isSome = true := by
  have h := data_layout_cache_always_present
  have h1 : m0.data_layout.isSome = true := h.2.1 "m" initState m0 st0 rfl
  exact ⟨h1, h.2.2.2.2.2.2.2 m0 h1⟩

end Inkwell
